import Mathlib

/-!
Verification of the command-proxy core of GitPython (`lib/git/cmd.py`):
directory resolution (`Git._is_git_dir`, `Git.get_git_dir`, `Git.refresh`),
the process runner (`Git.execute`) and the dynamic dispatch
(`Git.transform_kwargs`, `Git.method_missing`).

The Python code is shallowly embedded: filesystem queries (`os.path.isdir`,
`os.path.isfile`, `os.path.islink`, `os.readlink`, `os.path.abspath`) are
an abstract record of total functions; environment variables and the
observable behaviour of each child process (exit status, captured
stdout/stderr) are explicit parameters; and Python `None`-or-string
values are `Option String` with Python truthiness made explicit.
-/

namespace GitPython

/-- Python truthiness of a `None`-or-string value: `None` and the empty
string are falsy, every other string is truthy. -/
def truthy : Option String → Bool
  | none => false
  | some s => !(s = "")

/-- The whitespace characters stripped by Python `str.rstrip()`:
space, tab, newline, carriage return, vertical tab, form feed. -/
def pyIsSpace (c : Char) : Bool :=
  c = ' ' || c = '\t' || c = '\n' || c = '\r' || c = '\x0b' || c = '\x0c'

/-- Python `str.rstrip()`: remove trailing whitespace characters. -/
def pyRstrip (s : String) : String :=
  String.mk ((s.data.reverse.dropWhile pyIsSpace).reverse)

/-- Python `str.startswith(t)`. -/
def pyStartsWith (s t : String) : Bool :=
  s.data.take t.data.length == t.data

/-- Python `str.endswith(t)`. -/
def pyEndsWith (s t : String) : Bool :=
  s.data.drop (s.data.length - t.data.length) == t.data

/-- Embedding of `os.path.join(a, b)` for a single relative component, following
`posixpath.join`: an absolute `b` replaces `a`; otherwise `b` is appended,
inserting a slash unless `a` is empty or already ends with one. -/
def joinPath (a b : String) : String :=
  if pyStartsWith b "/" = true then b
  else if a = "" ∨ pyEndsWith a "/" = true then a ++ b
  else a ++ "/" ++ b

/-- Embedding of `os.path.split(p)` following `posixpath.split`: split after the last
slash; the head keeps its trailing slashes only when it consists of
slashes alone (or is empty). -/
def pySplit (p : String) : String × String :=
  let cs := p.data
  let tailPart := (cs.reverse.takeWhile (fun c => !(c = '/'))).reverse
  let headPart := cs.take (cs.length - tailPart.length)
  let headStr :=
    if headPart.all (fun c => c = '/') then headPart
    else (headPart.reverse.dropWhile (fun c => c = '/')).reverse
  (String.mk headStr, String.mk tailPart)

/-- A Python value as it can appear among the positional or keyword
arguments of a dispatched call: a genuine `bool`, an `int`, or a string.
`bool` is kept separate because `transform_kwargs` tests `v is True` and
`type(v) is not bool`. -/
inductive GVal where
  | bool (b : Bool)
  | int (n : Int)
  | str (s : String)
deriving DecidableEq

/-- Python `str(v)` and `"%s" % v` for the embedded values. -/
def pyStr : GVal → String
  | GVal.bool true => "True"
  | GVal.bool false => "False"
  | GVal.int n => toString n
  | GVal.str s => s

/-- Python `type(v) is bool`. -/
def GVal.isBoolVal : GVal → Bool
  | GVal.bool _ => true
  | _ => false

/-- Modelled from the spec: `dashify` is defined in the repository module
`utils`, which is not present under `src/`; per the spec
glossary (transformation of underscores of an identifier into hyphens) it replaces
every underscore with a hyphen. -/
def dashify (s : String) : String :=
  String.mk (s.data.map (fun c => if c = '_' then '-' else c))

/-- One iteration of the loop body of `Git.transform_kwargs`
(`lib/git/cmd.py` lines 170-180): append the flag derived from the
keyword argument `kv` to the accumulated list `args`. -/
def transformStep (args : List String) (kv : String × GVal) : List String :=
  let k := kv.1
  let v := kv.2
  if k.length = 1 then
    if v = GVal.bool true then args ++ ["-" ++ k]
    else if GVal.isBoolVal v = false then args ++ ["-" ++ k ++ pyStr v]
    else args
  else
    if v = GVal.bool true then args ++ ["--" ++ dashify k]
    else if GVal.isBoolVal v = false then args ++ ["--" ++ dashify k ++ "=" ++ pyStr v]
    else args

/-- Embedding of `Git.transform_kwargs` (`lib/git/cmd.py` lines 165-181): transform
Python-style keyword arguments into git command-line options, in
iteration order. -/
def transform_kwargs (kwargs : List (String × GVal)) : List String :=
  kwargs.foldl transformStep []

/-- The per-argument flag tokens exactly as the specification states them
(spec section 4.3 step 2): single-character key with boolean-true value
gives the short flag, boolean-false is omitted, non-boolean gives the
short flag with inline stringified value; multi-character keys give the
corresponding long-flag forms with underscores dashified. -/
def specFlagTokens (kv : String × GVal) : List String :=
  match kv with
  | (k, v) =>
    if k.length = 1 then
      match v with
      | GVal.bool true => ["-" ++ k]
      | GVal.bool false => []
      | v => ["-" ++ k ++ pyStr v]
    else
      match v with
      | GVal.bool true => ["--" ++ dashify k]
      | GVal.bool false => []
      | v => ["--" ++ dashify k ++ "=" ++ pyStr v]

/-- Concatenation of the specification-side flag tokens over a keyword
argument list. -/
def specFlags : List (String × GVal) → List String
  | [] => []
  | kv :: rest => specFlagTokens kv ++ specFlags rest

theorem transformStep_eq (args : List String) (kv : String × GVal) :
    transformStep args kv = args ++ specFlagTokens kv := by
  obtain ⟨k, v⟩ := kv
  by_cases hk : k.length = 1 <;> cases v with
  | bool b => cases b <;> simp [transformStep, specFlagTokens, GVal.isBoolVal, hk]
  | int n => simp [transformStep, specFlagTokens, GVal.isBoolVal, hk]
  | str s => simp [transformStep, specFlagTokens, GVal.isBoolVal, hk]

theorem foldl_transformStep (kwargs : List (String × GVal)) :
    ∀ init : List String, kwargs.foldl transformStep init = init ++ specFlags kwargs := by
  induction kwargs with
  | nil => intro init; simp [specFlags]
  | cons kv rest ih =>
    intro init
    simp only [List.foldl_cons, transformStep_eq, specFlags, ih, List.append_assoc]

theorem transform_kwargs_eq_specFlags (kwargs : List (String × GVal)) :
    transform_kwargs kwargs = specFlags kwargs := by
  simpa [transform_kwargs] using foldl_transformStep kwargs []

/-! ## Filesystem model and directory resolution -/

/-- The filesystem queries used by the directory resolver, as an abstract
record of total functions: `os.path.isdir`, `os.path.isfile`,
`os.path.islink`, `os.readlink` and `os.path.abspath`. -/
structure FS where
  isdir : String → Bool
  isfile : String → Bool
  islink : String → Bool
  readlink : String → String
  abspath : String → String

/-- Embedding of `Git._is_git_dir` (`lib/git/cmd.py` lines 35-46): a candidate `d` is a
git directory when it is a directory containing `objects` and `refs`
directories and a `HEAD` that is a regular file or a symlink whose target
starts with `refs`. -/
def is_git_dir (fs : FS) (d : String) : Bool :=
  if fs.isdir d && fs.isdir (joinPath d "objects") && fs.isdir (joinPath d "refs") then
    let headref := joinPath d "HEAD"
    fs.isfile headref || (fs.islink headref && pyStartsWith (fs.readlink headref) "refs")
  else false

/-- The upward walk of `Git.get_git_dir` (`lib/git/cmd.py` lines 53-64),
fuel-indexed: at each directory try the directory itself, then its `.git`
subdirectory, then move to the head produced by `os.path.split`, stopping when the tail
component is empty (filesystem root reached) or the path is empty.  The
loop shortens the path at every step, so fuel `curpath.length + 1` is
enough to run it to completion (see `gitDirLoopFuel_congr`). -/
def gitDirLoopFuel (fs : FS) : Nat → String → Option String
  | 0, _ => none
  | fuel + 1, curpath =>
    if curpath = "" then none
    else if is_git_dir fs curpath = true then some curpath
    else
      let gitpath := joinPath curpath ".git"
      if is_git_dir fs gitpath = true then some gitpath
      else
        let sp := pySplit curpath
        if sp.2 = "" then none
        else gitDirLoopFuel fs fuel sp.1

/-- The directories visited by the upward walk of `Git.get_git_dir`,
with the same fuel discipline as `gitDirLoopFuel`. -/
def walkChainFuel : Nat → String → List String
  | 0, _ => []
  | fuel + 1, curpath =>
    if curpath = "" then []
    else
      curpath ::
        (let sp := pySplit curpath
         if sp.2 = "" then [] else walkChainFuel fuel sp.1)

/-- Embedding of `Git.get_git_dir` (`lib/git/cmd.py` lines 48-65) on the uncached path
taken by `refresh`: read the `GIT_DIR` environment override into
`_git_dir`; if it is truthy and validates, return it; otherwise walk
upward from `_location`, overwriting `_git_dir` on success.  When the walk
finds nothing, `_git_dir` keeps the value read from the environment. -/
def get_git_dir_compute (fs : FS) (envGitDir : Option String) (location : String) :
    Option String :=
  if truthy envGitDir = true ∧ is_git_dir fs (envGitDir.getD "") = true then envGitDir
  else
    match gitDirLoopFuel fs (location.length + 1) location with
    | some d => some d
    | none => envGitDir

/-- Embedding of `Git.get_work_tree` (`lib/git/cmd.py` lines 67-75) on the uncached
path taken by `refresh`: `None` for a bare repository; otherwise the
`GIT_WORK_TREE` override when truthy and a directory, else the absolute
path of the parent of the resolved git directory. -/
def get_work_tree (fs : FS) (envWorkTree : Option String) (git_dir : Option String)
    (is_bare_repo : Bool) : Option String :=
  if is_bare_repo = true then none
  else
    let wt := envWorkTree
    if truthy wt = false ∨ fs.isdir (wt.getD "") = false then
      some (fs.abspath (joinPath (git_dir.getD "") ".."))
    else wt

/-- The cached location state of a `Git` instance: `_location`,
`_is_bare_repo`, `_git_dir`, `_work_tree`, `_cwd`, `_is_in_repo`. -/
structure GitState where
  location : String
  is_bare_repo : Bool
  git_dir : Option String
  work_tree : Option String
  cwd : Option String
  is_in_repo : Bool
deriving DecidableEq

/-- Embedding of `Git.refresh` (`lib/git/cmd.py` lines 27-33): recompute `_git_dir`
via `get_git_dir`, set `_is_in_repo` to its truthiness, reset
`_work_tree`, and set `_cwd` to the git directory, or to the work tree
when the git directory is truthy and the repository is not bare. -/
def Git.refresh (fs : FS) (envGitDir envWorkTree : Option String)
    (location : String) (is_bare_repo : Bool) : GitState :=
  let git_dir := get_git_dir_compute fs envGitDir location
  let is_in_repo := truthy git_dir
  if truthy git_dir = true ∧ is_bare_repo = false then
    let wt := get_work_tree fs envWorkTree git_dir is_bare_repo
    { location := location, is_bare_repo := is_bare_repo, git_dir := git_dir,
      work_tree := wt, cwd := wt, is_in_repo := is_in_repo }
  else
    { location := location, is_bare_repo := is_bare_repo, git_dir := git_dir,
      work_tree := none, cwd := git_dir, is_in_repo := is_in_repo }

/-- Embedding of `Git.__init__` (`lib/git/cmd.py` lines 18-25): fix `_location` to the
absolute form of the given path (or the ambient working directory when the
argument is absent or empty), record bareness, and run one `refresh`. -/
def Git.construct (fs : FS) (envGitDir envWorkTree : Option String)
    (ambientCwd : String) (git_dir_arg : Option String) (bare_repo : Bool) : GitState :=
  let location :=
    if truthy git_dir_arg = true then fs.abspath (git_dir_arg.getD "") else ambientCwd
  Git.refresh fs envGitDir envWorkTree location bare_repo

/-- If every directory the walk visits fails the git-directory test (both
directly and through its `.git` subdirectory), the walk finds nothing. -/
theorem gitDirLoopFuel_eq_none (fs : FS) :
    ∀ (fuel : Nat) (p : String),
      (∀ d ∈ walkChainFuel fuel p,
        is_git_dir fs d = false ∧ is_git_dir fs (joinPath d ".git") = false) →
      gitDirLoopFuel fs fuel p = none := by
  intro fuel
  induction fuel with
  | zero => intro p _; rfl
  | succ n ih =>
    intro p h
    by_cases hp : p = ""
    · simp [gitDirLoopFuel, hp]
    · have hmem : p ∈ walkChainFuel (n + 1) p := by
        simp [walkChainFuel, hp]
      obtain ⟨h1, h2⟩ := h p hmem
      by_cases hd : (pySplit p).2 = ""
      · simp [gitDirLoopFuel, hp, h1, h2, hd]
      · have hrec : gitDirLoopFuel fs n (pySplit p).1 = none := by
          apply ih
          intro d hdmem
          apply h
          simp only [walkChainFuel, hp, if_neg hp, hd, if_neg hd, List.mem_cons]
          right
          exact hdmem
        simp [gitDirLoopFuel, hp, h1, h2, hd, hrec]

/-! ## Process runner and dispatch -/

/-- The observable behaviour of the child process: exit status and the
raw bytes read from its standard output and standard error. -/
structure ChildResult where
  status : Int
  stdout : String
  stderr : String
deriving DecidableEq

/-- The optional keyword arguments recognised by `Git.execute`
(`lib/git/cmd.py` lines 81-87), with their default values.  `istream`
models the optional standard-input source handed to the child. -/
structure ExecOpts where
  istream : Option String := none
  with_keep_cwd : Bool := false
  with_extended_output : Bool := false
  with_exceptions : Bool := true
  with_raw_output : Bool := false
deriving DecidableEq

/-- Payload of `GitCommandError` as raised by `Git.execute` (`lib/git/cmd.py` line
149): it carries the command argument vector, the exit status, and the
captured standard-error text.  The class itself lives in the repository module
`errors`, which is not present under `src/`; its payload is
modelled from the constructor call in `execute` and the error taxonomy
of the spec. -/
structure GitCommandError where
  command : List String
  status : Int
  stderr : String
deriving DecidableEq

/-- The value `Git.execute` returns when it does not raise: the stdout
string, or the `(status, stdout, stderr)` triple under
`with_extended_output`. -/
inductive ExecReturn where
  | stdout (s : String)
  | extended (status : Int) (out : String) (err : String)
deriving DecidableEq

/-- The result of one call to `Git.execute`: either a raised
`GitCommandError` or a returned value. -/
inductive ExecResult where
  | raised (e : GitCommandError)
  | returned (r : ExecReturn)
deriving DecidableEq

/-- Everything one call to `Git.execute` makes observable: the trace
lines printed before the child is spawned, the result, and the trace
lines printed after the child has exited. -/
structure ExecOutcome where
  preTrace : List String
  result : ExecResult
  postTrace : List String
deriving DecidableEq

/-- The spawn request handed to `subprocess.Popen` (`lib/git/cmd.py`
lines 127-132): the command vector, the working directory for the child
(absent means inherit the ambient one), and the standard-input source. -/
structure SpawnReq where
  command : List String
  cwd : Option String
  istream : Option String
deriving DecidableEq

/-- A single-quote character as a string, for rendering the quoted
stream contents of the trace lines. -/
def sq : String := String.mk ['\x27']

/-- Python `str` of a list of strings, as interpolated by
`"%s" % (command, ...)`: the elements quoted and comma-separated inside
square brackets. -/
def pyReprList (cmd : List String) : String :=
  "[" ++ String.intercalate ", " (cmd.map (fun s => sq ++ s ++ sq)) ++ "]"

/-- The single post-execution line printed by `Git.execute` when
`GIT_PYTHON_TRACE` equals `full` (`lib/git/cmd.py` lines 151-157): both
streams when stderr is non-empty, stdout alone when only stdout is
non-empty, and just the command and status otherwise. -/
def fullTraceLine (command : List String) (status : Int) (out err : String) : String :=
  if err ≠ "" then
    pyReprList command ++ " -> " ++ toString status ++ ": " ++ sq ++ out ++ sq
      ++ " !! " ++ sq ++ err ++ sq
  else if out ≠ "" then
    pyReprList command ++ " -> " ++ toString status ++ ": " ++ sq ++ out ++ sq
  else
    pyReprList command ++ " -> " ++ toString status

/-- Embedding of `Git.execute` (`lib/git/cmd.py` lines 81-163).  The ambient working
directory (`os.getcwd()`), the trace environment variable and the
behaviour of the child are explicit parameters; the function returns the (unchanged)
instance state, the spawn request handed to `subprocess.Popen`, and the
observable outcome. -/
def Git.execute (st : GitState) (trace : Option String) (ambientCwd : String)
    (command : List String) (opts : ExecOpts) (child : ChildResult) :
    GitState × SpawnReq × ExecOutcome :=
  let preTrace :=
    if truthy trace = true ∧ ¬trace = some "full" then [String.intercalate " " command]
    else []
  let cwd : Option String := if opts.with_keep_cwd = true then some ambientCwd else st.cwd
  let req : SpawnReq := { command := command, cwd := cwd, istream := opts.istream }
  let stdout_value :=
    if opts.with_raw_output = false then pyRstrip child.stdout else child.stdout
  let stderr_value :=
    if opts.with_raw_output = false then pyRstrip child.stderr else child.stderr
  let outcome : ExecOutcome :=
    if opts.with_exceptions = true ∧ ¬child.status = 0 then
      { preTrace := preTrace,
        result := ExecResult.raised
          { command := command, status := child.status, stderr := stderr_value },
        postTrace := [] }
    else
      let postTrace :=
        if trace = some "full" then
          [fullTraceLine command child.status stdout_value stderr_value]
        else []
      let ret :=
        if opts.with_extended_output = true then
          ExecReturn.extended child.status stdout_value stderr_value
        else ExecReturn.stdout stdout_value
      { preTrace := preTrace, result := ExecResult.returned ret, postTrace := postTrace }
  (st, req, outcome)

/-- The optional keyword names `method_missing` extracts for `execute`
(`lib/git/cmd.py` lines 11-12). -/
def execute_kwargs : List String :=
  ["istream", "with_keep_cwd", "with_extended_output", "with_exceptions", "with_raw_output"]

/-- Embedding of `Git.method_missing` (`lib/git/cmd.py` lines 183-223): pop the
recognised execution options out of the keyword arguments (their values,
modelled by `opts`, go to `execute`), transform the remaining keyword
arguments into flags, stringify the positional arguments, and run
`["git", dashify(method)] ++ flags ++ positionals`.  The surrounding
`MethodMissingMixin` (module `method_missing`, not present under `src/`)
merely routes unknown attribute calls here, per the dispatch contract
of the spec. -/
def Git.method_missing (st : GitState) (trace : Option String) (ambientCwd : String)
    (method : String) (args : List GVal) (kwargs : List (String × GVal))
    (opts : ExecOpts) (child : ChildResult) : GitState × SpawnReq × ExecOutcome :=
  let cliKwargs := kwargs.filter (fun kv => !(execute_kwargs.contains kv.1))
  let opt_args := transform_kwargs cliKwargs
  let ext_args := args.map pyStr
  let call := ["git", dashify method] ++ (opt_args ++ ext_args)
  Git.execute st trace ambientCwd call opts child

/-! ## Claim theorems -/

/-- C1: every keyword argument transforms exactly as the per-key rule
of the spec states (single-character keys to short flags, multi-character keys to
dashified long flags, boolean true to a bare flag, boolean false to
nothing, non-boolean values stringified inline); in particular
`max_count=10` gives `--max-count=10`, `header=True` gives `--header`,
`header=False` gives nothing, `n=5` gives `-n5`, and boolean-false
keyword arguments never contribute a token. -/
theorem claim_C1_transform_kwargs :
    (∀ kwargs : List (String × GVal), transform_kwargs kwargs = specFlags kwargs)
    ∧ transform_kwargs [("max_count", GVal.int 10)] = ["--max-count=10"]
    ∧ transform_kwargs [("header", GVal.bool true)] = ["--header"]
    ∧ transform_kwargs [("header", GVal.bool false)] = []
    ∧ transform_kwargs [("n", GVal.int 5)] = ["-n5"]
    ∧ (∀ kwargs : List (String × GVal),
        transform_kwargs (kwargs.filter (fun kv => !(kv.2 = GVal.bool false)))
          = transform_kwargs kwargs) := by
  refine ⟨transform_kwargs_eq_specFlags, by decide, by decide, by decide, by decide, ?_⟩
  intro kwargs
  rw [transform_kwargs_eq_specFlags, transform_kwargs_eq_specFlags]
  induction kwargs with
  | nil => rfl
  | cons kv rest ih =>
    by_cases hf : kv.2 = GVal.bool false
    · have htok : specFlagTokens kv = [] := by
        obtain ⟨k, v⟩ := kv
        simp only at hf
        subst hf
        by_cases hk : k.length = 1 <;> simp [specFlagTokens, hk]
      simp [List.filter_cons, hf, specFlags, htok, ih]
    · simp [List.filter_cons, hf, specFlags, ih]

/-- C4: the git-directory validity test accepts a candidate `X` exactly
when `X`, `X/objects` and `X/refs` are directories and `X/HEAD` is either
a regular file or a symlink whose target starts with `refs`. -/
theorem claim_C4_is_git_dir (fs : FS) (d : String) :
    is_git_dir fs d = true ↔
      (fs.isdir d = true ∧ fs.isdir (joinPath d "objects") = true
        ∧ fs.isdir (joinPath d "refs") = true
        ∧ (fs.isfile (joinPath d "HEAD") = true
            ∨ (fs.islink (joinPath d "HEAD") = true
                ∧ pyStartsWith (fs.readlink (joinPath d "HEAD")) "refs" = true))) := by
  cases h1 : fs.isdir d <;> cases h2 : fs.isdir (joinPath d "objects") <;>
    cases h3 : fs.isdir (joinPath d "refs") <;>
    simp [is_git_dir, h1, h2, h3, Bool.or_eq_true, Bool.and_eq_true]

/-- A concrete instance state used by the closed example theorems. -/
def stW : GitState :=
  { location := "/", is_bare_repo := false, git_dir := none, work_tree := none,
    cwd := none, is_in_repo := false }

/-- C3: `execute` raises exactly when `with_exceptions` is set and the
exit status of the child is non-zero, and the raised `GitCommandError` carries
exactly the command vector, the exit status, and the (conditionally
stripped) captured standard-error text; otherwise nothing is raised. -/
theorem claim_C3_execute_raises (st : GitState) (trace : Option String)
    (ambientCwd : String) (command : List String) (opts : ExecOpts) (child : ChildResult) :
    ((∃ e, (Git.execute st trace ambientCwd command opts child).2.2.result
        = ExecResult.raised e)
      ↔ (opts.with_exceptions = true ∧ child.status ≠ 0))
    ∧ (∀ e, (Git.execute st trace ambientCwd command opts child).2.2.result
          = ExecResult.raised e →
        e = { command := command, status := child.status,
              stderr := if opts.with_raw_output = false then pyRstrip child.stderr
                        else child.stderr }) := by
  by_cases he : opts.with_exceptions = true
  · by_cases hs : child.status = 0
    · simp [Git.execute, he, hs]
    · constructor
      · simp [Git.execute, he, hs]
      · intro e hres
        simp [Git.execute, he, hs] at hres
        simp [← hres]
  · constructor
    · simp [Git.execute, he]
    · intro e hres
      simp [Git.execute, he] at hres

theorem claim_C3_witness :
    ∃ e, (Git.execute stW none "/" ["git", "status"] {}
        { status := 1, stdout := "", stderr := "err" }).2.2.result = ExecResult.raised e :=
  (claim_C3_execute_raises stW none "/" ["git", "status"] {}
    { status := 1, stdout := "", stderr := "err" }).1.mpr ⟨rfl, by decide⟩

/-- C7: for a child exiting with status 128 and stderr
`fatal: not a repo`, `execute` raises a `GitCommandError` carrying status
128 and that stderr text when `with_exceptions` is set, and returns the
triple `(128, empty stdout, that stderr)` when it is not (with extended
output selected, which is what makes the triple the return shape). -/
theorem claim_C7_status_128 :
    (Git.execute stW none "/" ["git", "status"] {}
        { status := 128, stdout := "", stderr := "fatal: not a repo" }).2.2.result
      = ExecResult.raised
          { command := ["git", "status"], status := 128, stderr := "fatal: not a repo" }
    ∧ (Git.execute stW none "/" ["git", "status"]
        { with_extended_output := true, with_exceptions := false }
        { status := 128, stdout := "", stderr := "fatal: not a repo" }).2.2.result
      = ExecResult.returned (ExecReturn.extended 128 "" "fatal: not a repo") := by
  constructor <;> decide

/-- In a `dropWhile`, the head of the remainder fails the predicate. -/
theorem dropWhile_head_false {α : Type} {p : α → Bool} :
    ∀ (l : List α) (c : α) (cs : List α), l.dropWhile p = c :: cs → p c = false := by
  intro l
  induction l with
  | nil => intro c cs h; simp [List.dropWhile] at h
  | cons a l ih =>
    intro c cs h
    by_cases hp : p a = true
    · rw [List.dropWhile_cons_of_pos hp] at h
      exact ih _ _ h
    · rw [List.dropWhile_cons_of_neg hp] at h
      obtain ⟨h1, _⟩ := List.cons.injEq a l c cs ▸ h
      exact h1 ▸ (Bool.not_eq_true _).mp hp

/-- C8: a child exiting 0 with stdout `abc` + newline returns the string
`abc` under default options and the triple `(0, abc-without-newline,
empty)` under extended output; in general, captured streams are
`rstrip`ped exactly when `with_raw_output` is unset and returned verbatim
when it is set, and `rstrip` removes precisely a (maximal) whitespace
suffix. -/
theorem claim_C8_stream_stripping :
    (Git.execute stW none "/" ["git", "status"] {}
        { status := 0, stdout := "abc\n", stderr := "" }).2.2.result
      = ExecResult.returned (ExecReturn.stdout "abc")
    ∧ (Git.execute stW none "/" ["git", "status"] { with_extended_output := true }
        { status := 0, stdout := "abc\n", stderr := "" }).2.2.result
      = ExecResult.returned (ExecReturn.extended 0 "abc" "")
    ∧ (∀ (st : GitState) (trace : Option String) (amb : String) (cmd : List String)
          (opts : ExecOpts) (child : ChildResult),
        opts.with_raw_output = false → opts.with_exceptions = false →
        (Git.execute st trace amb cmd { opts with with_extended_output := true }
            child).2.2.result
          = ExecResult.returned
              (ExecReturn.extended child.status (pyRstrip child.stdout)
                (pyRstrip child.stderr)))
    ∧ (∀ (st : GitState) (trace : Option String) (amb : String) (cmd : List String)
          (opts : ExecOpts) (child : ChildResult),
        opts.with_raw_output = true → opts.with_exceptions = false →
        (Git.execute st trace amb cmd { opts with with_extended_output := true }
            child).2.2.result
          = ExecResult.returned
              (ExecReturn.extended child.status child.stdout child.stderr))
    ∧ (∀ s : String, ∃ t : String,
        s = pyRstrip s ++ t ∧ t.data.all pyIsSpace = true
        ∧ (pyRstrip s = ""
            ∨ pyIsSpace (((pyRstrip s).data.getLast?).getD ' ') = false)) := by
  refine ⟨by decide, by decide, ?_, ?_, ?_⟩
  · intro st trace amb cmd opts child hraw hexc
    simp [Git.execute, hraw, hexc]
  · intro st trace amb cmd opts child hraw hexc
    simp [Git.execute, hraw, hexc]
  · intro s
    refine ⟨String.mk ((s.data.reverse.takeWhile pyIsSpace).reverse), ?_, ?_, ?_⟩
    · have hdata : s.data
          = (s.data.reverse.dropWhile pyIsSpace).reverse
            ++ (s.data.reverse.takeWhile pyIsSpace).reverse := by
        rw [← List.reverse_append, List.takeWhile_append_dropWhile, List.reverse_reverse]
      show String.mk s.data
        = pyRstrip s ++ String.mk ((s.data.reverse.takeWhile pyIsSpace).reverse)
      nth_rewrite 1 [hdata]
      rfl
    · simp only [List.all_eq_true, List.mem_reverse]
      intro c hc
      exact List.mem_takeWhile_imp hc
    · rcases hd : s.data.reverse.dropWhile pyIsSpace with _ | ⟨c, cs⟩
      · left
        simp [pyRstrip, hd]
      · right
        have hp : pyIsSpace c = false := dropWhile_head_false _ _ _ hd
        simp [pyRstrip, hd, List.getLast?_reverse, hp]

theorem claim_C8_witness :
    (Git.execute stW none "/" ["git"]
        { with_exceptions := false, with_extended_output := true }
        { status := 7, stdout := "x \n", stderr := "e\t" }).2.2.result
      = ExecResult.returned (ExecReturn.extended 7 "x" "e") := by
  have h := claim_C8_stream_stripping.2.2.1 stW none "/" ["git"]
    { with_exceptions := false } { status := 7, stdout := "x \n", stderr := "e\t" } rfl rfl
  exact h

/-- When the split has a non-empty tail component, the head is strictly
shorter than the input: the upward walk of `get_git_dir` shortens the
path at every step. -/
theorem pySplit_fst_length_lt (p : String) (h : ¬(pySplit p).2 = "") :
    (pySplit p).1.length < p.length := by
  have htail : ((p.data.reverse.takeWhile (fun c => !(c = '/'))).reverse) ≠ [] := by
    intro hnil
    apply h
    show String.mk ((p.data.reverse.takeWhile (fun c => !(c = '/'))).reverse) = ""
    rw [hnil]
  have htlen : 0 < ((p.data.reverse.takeWhile (fun c => !(c = '/'))).reverse).length :=
    List.length_pos.mpr htail
  have htle : ((p.data.reverse.takeWhile (fun c => !(c = '/'))).reverse).length
      ≤ p.data.length := by
    rw [List.length_reverse]
    calc (p.data.reverse.takeWhile (fun c => !(c = '/'))).length
        ≤ p.data.reverse.length := (List.takeWhile_sublist _).length_le
      _ = p.data.length := List.length_reverse _
  have hhead : (p.data.take (p.data.length
      - ((p.data.reverse.takeWhile (fun c => !(c = '/'))).reverse).length)).length
      < p.data.length := by
    rw [List.length_take]
    omega
  have hmk : ∀ l : List Char, (String.mk l).length = l.length := fun _ => rfl
  have hpl : p.length = p.data.length := rfl
  simp only [pySplit, hmk, hpl]
  split
  · exact hhead
  · calc ((p.data.take (p.data.length
          - ((p.data.reverse.takeWhile (fun c => !(c = '/'))).reverse).length)).reverse.dropWhile
            (fun c => c = '/')).reverse.length
        = ((p.data.take (p.data.length
          - ((p.data.reverse.takeWhile (fun c => !(c = '/'))).reverse).length)).reverse.dropWhile
            (fun c => c = '/')).length := List.length_reverse _
      _ ≤ (p.data.take (p.data.length
          - ((p.data.reverse.takeWhile (fun c => !(c = '/'))).reverse).length)).reverse.length :=
          (List.dropWhile_sublist _).length_le
      _ = (p.data.take (p.data.length
          - ((p.data.reverse.takeWhile (fun c => !(c = '/'))).reverse).length)).length :=
          List.length_reverse _
      _ < p.data.length := hhead

/-- Any two fuels larger than the path length run the walk identically:
the fuel `location.length + 1` used by `get_git_dir_compute` is enough to
run the `while` loop of the source to completion. -/
theorem gitDirLoopFuel_congr (fs : FS) :
    ∀ (f₁ : Nat) (p : String) (f₂ : Nat), p.length < f₁ → p.length < f₂ →
      gitDirLoopFuel fs f₁ p = gitDirLoopFuel fs f₂ p := by
  intro f₁
  induction f₁ with
  | zero => intro p f₂ h1 _; exact absurd h1 (Nat.not_lt_zero _)
  | succ n ih =>
    intro p f₂ h1 h2
    cases f₂ with
    | zero => exact absurd h2 (Nat.not_lt_zero _)
    | succ m =>
      by_cases hp : p = ""
      · simp [gitDirLoopFuel, hp]
      by_cases hg1 : is_git_dir fs p = true
      · simp [gitDirLoopFuel, hp, hg1]
      by_cases hg2 : is_git_dir fs (joinPath p ".git") = true
      · simp [gitDirLoopFuel, hp, hg1, hg2]
      by_cases hd : (pySplit p).2 = ""
      · simp [gitDirLoopFuel, hp, hg1, hg2, hd]
      · have hlt := pySplit_fst_length_lt p hd
        have hrec := ih (pySplit p).1 m (by omega) (by omega)
        simp [gitDirLoopFuel, hp, hg1, hg2, hd, hrec]

/-- A filesystem on which no path is a directory, a file, or a symlink:
nothing validates as a git directory anywhere. -/
def fs0 : FS :=
  { isdir := fun _ => false, isfile := fun _ => false, islink := fun _ => false,
    readlink := fun _ => "", abspath := fun p => p }

/-- C2 fails as stated: starting from a path none of whose ancestors (nor
their `.git` subdirectories) validates, with the `GIT_DIR` override set
to a path that also fails the validity test, `get_git_dir` keeps the
override value, so the control directory is not absent and
`_is_in_repo` is true after `refresh`. -/
theorem claim_C2_counterexample :
    walkChainFuel ("/home/u".length + 1) "/home/u" = ["/home/u", "/home", "/"]
    ∧ is_git_dir fs0 "/home/u" = false
    ∧ is_git_dir fs0 (joinPath "/home/u" ".git") = false
    ∧ is_git_dir fs0 "/home" = false
    ∧ is_git_dir fs0 (joinPath "/home" ".git") = false
    ∧ is_git_dir fs0 "/" = false
    ∧ is_git_dir fs0 (joinPath "/" ".git") = false
    ∧ is_git_dir fs0 "/bogus" = false
    ∧ (Git.refresh fs0 (some "/bogus") none "/home/u" false).git_dir = some "/bogus"
    ∧ (Git.refresh fs0 (some "/bogus") none "/home/u" false).is_in_repo = true := by
  decide

/-- C2 (amended): when neither the starting path nor any directory the
upward walk visits validates as a control directory (directly or through
its `.git` subdirectory), and the `GIT_DIR` environment override is
absent or empty, directory resolution yields an absent/empty control
directory without raising, and `_is_in_repo` is false after `refresh`. -/
theorem claim_C2_amended (fs : FS) (envGitDir envWorkTree : Option String)
    (location : String) (bare : Bool)
    (henv : truthy envGitDir = false)
    (hwalk : ∀ d ∈ walkChainFuel (location.length + 1) location,
      is_git_dir fs d = false ∧ is_git_dir fs (joinPath d ".git") = false) :
    truthy (Git.refresh fs envGitDir envWorkTree location bare).git_dir = false
    ∧ (Git.refresh fs envGitDir envWorkTree location bare).is_in_repo = false := by
  have hloop := gitDirLoopFuel_eq_none fs (location.length + 1) location hwalk
  have hgd : get_git_dir_compute fs envGitDir location = envGitDir := by
    simp [get_git_dir_compute, henv, hloop]
  simp [Git.refresh, hgd, henv]

theorem claim_C2_witness :
    truthy (Git.refresh fs0 none none "/home/u" false).git_dir = false
    ∧ (Git.refresh fs0 none none "/home/u" false).is_in_repo = false :=
  claim_C2_amended fs0 none none "/home/u" false (by decide) (by decide)

/-- C10: with the `GIT_DIR` override set to a non-empty path that fails
the validity test and an upward walk that finds nothing, `get_git_dir`
returns the invalid override path rather than an absent value, and
`refresh` consequently sets `_is_in_repo` to true. -/
theorem claim_C10_invalid_override (fs : FS) (envWorkTree : Option String)
    (g : String) (location : String) (bare : Bool)
    (hg : g ≠ "")
    (hbad : is_git_dir fs g = false)
    (hwalk : ∀ d ∈ walkChainFuel (location.length + 1) location,
      is_git_dir fs d = false ∧ is_git_dir fs (joinPath d ".git") = false) :
    get_git_dir_compute fs (some g) location = some g
    ∧ (Git.refresh fs (some g) envWorkTree location bare).is_in_repo = true := by
  have hloop := gitDirLoopFuel_eq_none fs (location.length + 1) location hwalk
  have hgd : get_git_dir_compute fs (some g) location = some g := by
    simp [get_git_dir_compute, hbad, hloop]
  have htr : truthy (some g) = true := by simp [truthy, hg]
  refine ⟨hgd, ?_⟩
  cases bare <;> simp [Git.refresh, hgd, htr]

theorem claim_C10_witness :
    get_git_dir_compute fs0 (some "/bogus") "/home/u" = some "/bogus"
    ∧ (Git.refresh fs0 (some "/bogus") none "/home/u" false).is_in_repo = true :=
  claim_C10_invalid_override fs0 none "/bogus" "/home/u" false (by decide) (by decide)
    (by decide)

/-- C5: for a dispatched call whose keyword arguments contain no
recognised execution-option names, the argument vector handed to the
process runner is the binary name, the dashified method name, the
transformed flags, and the stringified positional arguments in original
order, with all flags preceding all positionals. -/
theorem claim_C5_argv (st : GitState) (trace : Option String) (ambientCwd : String)
    (method : String) (args : List GVal) (kwargs : List (String × GVal))
    (opts : ExecOpts) (child : ChildResult)
    (hkw : ∀ kv ∈ kwargs, ¬ kv.1 ∈ execute_kwargs) :
    (Git.method_missing st trace ambientCwd method args kwargs opts child).2.1.command
      = ["git", dashify method] ++ transform_kwargs kwargs ++ args.map pyStr := by
  have hfilter : List.filter (fun kv => !decide (kv.1 ∈ execute_kwargs)) kwargs = kwargs := by
    apply List.filter_eq_self.mpr
    intro kv hmem
    simp [hkw kv hmem]
  simp [Git.method_missing, Git.execute, hfilter]

theorem claim_C5_witness :
    (Git.method_missing stW none "/" "rev_list" [GVal.str "master"]
        [("max_count", GVal.int 10), ("header", GVal.bool true)] {}
        { status := 0, stdout := "", stderr := "" }).2.1.command
      = ["git", "rev-list", "--max-count=10", "--header", "master"] := by
  have h := claim_C5_argv stW none "/" "rev_list" [GVal.str "master"]
    [("max_count", GVal.int 10), ("header", GVal.bool true)] {}
    { status := 0, stdout := "", stderr := "" } (by decide)
  rw [h]
  decide

/-- C6 fails as stated: with the trace flag set to the distinguished
`full` value the flag is enabled, yet no argument vector is emitted
before the child process runs (the pre-execution print is guarded by the check that the flag value
differs from `full`). -/
theorem claim_C6_counterexample :
    truthy (some "full") = true
    ∧ (Git.execute stW (some "full") "/" ["git", "status"] {}
        { status := 0, stdout := "", stderr := "" }).2.2.preTrace = [] := by
  decide

/-- C6 (amended): when the trace flag is enabled and not `full`, the
space-joined argument vector is emitted before the child runs and
nothing after; when it is `full`, nothing is emitted before the child
runs, and after execution a single summary line is emitted unless the
call raises (both streams shown when stderr is non-empty, stdout alone
when only stdout is non-empty, neither when both are empty — the shape
encoded in `fullTraceLine`); a disabled flag emits nothing before the
run. -/
theorem claim_C6_amended (st : GitState) (trace : Option String) (ambientCwd : String)
    (cmd : List String) (opts : ExecOpts) (child : ChildResult) :
    (truthy trace = true → ¬trace = some "full" →
      (Git.execute st trace ambientCwd cmd opts child).2.2.preTrace
        = [String.intercalate " " cmd]
      ∧ (Git.execute st trace ambientCwd cmd opts child).2.2.postTrace = [])
    ∧ (trace = some "full" →
        (Git.execute st trace ambientCwd cmd opts child).2.2.preTrace = []
        ∧ ((opts.with_exceptions = true ∧ child.status ≠ 0) →
            (Git.execute st trace ambientCwd cmd opts child).2.2.postTrace = [])
        ∧ (¬(opts.with_exceptions = true ∧ child.status ≠ 0) →
            (Git.execute st trace ambientCwd cmd opts child).2.2.postTrace
              = [fullTraceLine cmd child.status
                  (if opts.with_raw_output = false then pyRstrip child.stdout
                   else child.stdout)
                  (if opts.with_raw_output = false then pyRstrip child.stderr
                   else child.stderr)]))
    ∧ (truthy trace = false →
        (Git.execute st trace ambientCwd cmd opts child).2.2.preTrace = []) := by
  refine ⟨?_, ?_, ?_⟩
  · intro h1 h2
    by_cases hx : opts.with_exceptions = true ∧ ¬child.status = 0 <;>
      simp [Git.execute, h1, h2, hx]
  · intro hfull
    refine ⟨?_, ?_, ?_⟩
    · by_cases hx : opts.with_exceptions = true ∧ ¬child.status = 0 <;>
        simp [Git.execute, hfull, hx]
    · intro hx
      simp [Git.execute, hx.1, hx.2]
    · intro hx
      by_cases he : opts.with_exceptions = true
      · have hs : child.status = 0 := by
          by_contra hs
          exact hx ⟨he, hs⟩
        simp [Git.execute, hfull, he, hs]
      · simp [Git.execute, hfull, he]
  · intro h1
    by_cases hx : opts.with_exceptions = true ∧ ¬child.status = 0 <;>
      simp [Git.execute, h1, hx]

theorem claim_C6_witness :
    (Git.execute stW (some "1") "/" ["git", "status"] {}
        { status := 0, stdout := "", stderr := "" }).2.2.preTrace = ["git status"]
    ∧ (Git.execute stW (some "1") "/" ["git", "status"] {}
        { status := 0, stdout := "", stderr := "" }).2.2.postTrace = [] := by
  have h := (claim_C6_amended stW (some "1") "/" ["git", "status"] {}
    { status := 0, stdout := "", stderr := "" }).1 (by decide) (by decide)
  exact ⟨h.1.trans (by decide), h.2⟩

/-- C9: directory resolution happens once at construction (`__init__` is
exactly one `refresh` on the fixed location), and dispatch is
read-only on the cached location state: `execute` and `method_missing`
return the instance state unchanged, and absent `with_keep_cwd` the
child runs in the cached `_cwd` fixed at construction. -/
theorem claim_C9_frame (fs : FS) (envGitDir envWorkTree : Option String)
    (ambientCwd : String) (git_dir_arg : Option String) (bare : Bool)
    (st : GitState) (trace : Option String) (cmd : List String) (opts : ExecOpts)
    (child : ChildResult) (method : String) (args : List GVal)
    (kwargs : List (String × GVal)) :
    Git.construct fs envGitDir envWorkTree ambientCwd git_dir_arg bare
      = Git.refresh fs envGitDir envWorkTree
          (if truthy git_dir_arg = true then fs.abspath (git_dir_arg.getD "")
           else ambientCwd) bare
    ∧ (Git.execute st trace ambientCwd cmd opts child).1 = st
    ∧ (Git.method_missing st trace ambientCwd method args kwargs opts child).1 = st
    ∧ (opts.with_keep_cwd = false →
        (Git.execute st trace ambientCwd cmd opts child).2.1.cwd = st.cwd)
    ∧ (opts.with_keep_cwd = false →
        (Git.method_missing st trace ambientCwd method args kwargs opts child).2.1.cwd
          = st.cwd) := by
  refine ⟨rfl, rfl, rfl, ?_, ?_⟩ <;>
    intro hk <;> simp [Git.execute, Git.method_missing, hk]

theorem claim_C9_witness :
    (Git.execute stW none "/" ["git", "status"] {}
        { status := 0, stdout := "", stderr := "" }).1 = stW
    ∧ (Git.execute stW none "/" ["git", "status"] {}
        { status := 0, stdout := "", stderr := "" }).2.1.cwd = stW.cwd := by
  have h := claim_C9_frame fs0 none none "/" none false stW none ["git", "status"] {}
    { status := 0, stdout := "", stderr := "" } "status" [] []
  exact ⟨h.2.1, h.2.2.2.1 rfl⟩

end GitPython
